import Mathlib

/-!
# Verification of the bouncing-disk WebGL simulation

Shallow embedding of `src/wasm/src/lib.rs` (and the shader constants of
`src/wasm/src/dom_utils.rs`).  The Rust `f64` arithmetic is idealised as an
arbitrary linear ordered field (instantiated at `ℚ` for concrete evaluation
and at `ℝ` where the source uses `cos`/`sin`/`π`).  WebGL calls are modelled
as a command list together with a small state machine for the pieces of GL
state the program relies on (buffer bindings, attribute pointers, uniforms).
-/

/-- `Disk` from lib.rs: position `(x, y)` and velocity components.
The velocity fields are called `cos` and `sin` in the source. -/
structure Disk (α : Type) where
  x : α
  y : α
  cos : α
  sin : α
  deriving DecidableEq, Repr

/-- One axis of the boundary-reflection update in
`Screen::on_animation_frame` (lib.rs lines 94-109): advance the coordinate
by the velocity component, then mirror off `0` or `bound` (offset by the
disk radius `size`), forcing the sign of the velocity component. -/
def reflect1 {α : Type} [LinearOrderedField α] (size bound x v : α) : α × α :=
  if x + v - size < 0 then (size - (x + v - size), |v|)
  else if x + v + size > bound then (bound - (x + v + size - bound) - size, -|v|)
  else (x + v, v)

/-- The per-disk body of `Screen::on_animation_frame` (lib.rs 93-110):
the x-axis and y-axis updates are independent and applied to both axes. -/
def stepDisk {α : Type} [LinearOrderedField α] (size width height : α)
    (d : Disk α) : Disk α :=
  let px := reflect1 size width d.x d.cos
  let py := reflect1 size height d.y d.sin
  ⟨px.1, py.1, px.2, py.2⟩

/-- The per-disk update exactly as the spec (§4.2) words it: first
`x += vx; y += vy`, then the x-axis rule, then the symmetric y-axis rule. -/
def stepDiskSpec {α : Type} [LinearOrderedField α] (r width height : α)
    (d : Disk α) : Disk α :=
  let x := d.x + d.cos
  let y := d.y + d.sin
  let xv : α × α :=
    if x - r < 0 then (r - (x - r), |d.cos|)
    else if x + r > width then (width - (x + r - width) - r, -|d.cos|)
    else (x, d.cos)
  let yv : α × α :=
    if y - r < 0 then (r - (y - r), |d.sin|)
    else if y + r > height then (height - (y + r - height) - r, -|d.sin|)
    else (y, d.sin)
  ⟨xv.1, yv.1, xv.2, yv.2⟩

/-- GL enum `ARRAY_BUFFER`. -/
def ARRAY_BUFFER : ℕ := 34962
/-- GL enum `STREAM_DRAW`. -/
def STREAM_DRAW : ℕ := 35040
/-- GL enum `POINTS`. -/
def POINTS : ℕ := 0
/-- GL enum `COLOR_BUFFER_BIT`. -/
def COLOR_BUFFER_BIT : ℕ := 16384
/-- Id of the first buffer created in `init_gl` (`buffer_coords`). -/
def buffer_coords_id : ℕ := 0
/-- Id of the second buffer created in `init_gl` (`buffer_color`). -/
def buffer_color_id : ℕ := 1

/-- The WebGL calls the program issues.  Attribute and uniform locations are
identified by the shader variable name they were resolved from
(`get_attrib_location` / `get_uniform_location` are name-keyed), buffers by
their creation index. -/
inductive GLCmd (α : Type) where
  | clearColor (r g b a : α)
  | clear (mask : ℕ)
  | bindBuffer (target : ℕ) (buffer : ℕ)
  | bufferData (target : ℕ) (data : List α) (usage : ℕ)
  | vertexAttribPointer (attrib : String) (size : ℕ)
  | enableVertexAttribArray (attrib : String)
  | vertexAttrib3f (attrib : String) (r g b : α)
  | uniform1f (uniform : String) (value : α)
  | drawArrays (mode : ℕ) (first : ℕ) (count : ℕ)
  deriving DecidableEq, Repr

/-- The pieces of WebGL state this program relies on. -/
structure GLState (α : Type) where
  arrayBufferBinding : Option ℕ
  bufferContents : ℕ → List α
  attribBuffer : String → Option ℕ
  attribEnabled : String → Bool
  attribValue : String → α × α × α
  uniforms : String → Option α
  clearCol : α × α × α × α

/-- A fresh WebGL context: nothing bound, all buffers empty, all attribute
arrays disabled, generic attribute values at the GL default `(0,0,0)`. -/
def GLState.initial {α : Type} [LinearOrderedField α] : GLState α :=
  { arrayBufferBinding := none
    bufferContents := fun _ => []
    attribBuffer := fun _ => none
    attribEnabled := fun _ => false
    attribValue := fun _ => (0, 0, 0)
    uniforms := fun _ => none
    clearCol := (0, 0, 0, 0) }

/-- Semantics of one WebGL call. `bufferData` writes to the buffer currently
bound to `ARRAY_BUFFER`; `vertexAttribPointer` captures the currently bound
buffer as the attribute's source (that binding persists until the next
`vertexAttribPointer` on the same attribute). -/
def applyCmd {α : Type} [LinearOrderedField α] (g : GLState α) :
    GLCmd α → GLState α
  | .clearColor r gg b a => { g with clearCol := (r, gg, b, a) }
  | .clear _ => g
  | .bindBuffer target b =>
      if target = ARRAY_BUFFER then { g with arrayBufferBinding := some b } else g
  | .bufferData target data _ =>
      if target = ARRAY_BUFFER then
        match g.arrayBufferBinding with
        | some b =>
            { g with bufferContents := fun b2 =>
                if b2 = b then data else g.bufferContents b2 }
        | none => g
      else g
  | .vertexAttribPointer a _ =>
      { g with attribBuffer := fun a2 =>
          if a2 = a then g.arrayBufferBinding else g.attribBuffer a2 }
  | .enableVertexAttribArray a =>
      { g with attribEnabled := fun a2 => if a2 = a then true else g.attribEnabled a2 }
  | .vertexAttrib3f a r gg b =>
      { g with attribValue := fun a2 => if a2 = a then (r, gg, b) else g.attribValue a2 }
  | .uniform1f u v =>
      { g with uniforms := fun u2 => if u2 = u then some v else g.uniforms u2 }
  | .drawArrays _ _ _ => g

/-- Run a list of WebGL calls. -/
def runGL {α : Type} [LinearOrderedField α] (g : GLState α)
    (cmds : List (GLCmd α)) : GLState α :=
  cmds.foldl applyCmd g

/-- `Screen` from lib.rs (the opaque `gl` context handle is not part of the
pure state; attribute/uniform locations are carried as the names they were
resolved from). -/
structure Screen (α : Type) where
  uniform_point_size : String
  buffer_coords : ℕ
  attrib_coords : String
  attrib_color : String
  width : ℕ
  height : ℕ
  disk_num : ℕ
  disk_size : α
  disks : List (Disk α)
  deriving DecidableEq

/-- `Screen::on_animation_frame` (lib.rs 89-111): every disk is advanced and
reflected independently. -/
def Screen.on_animation_frame {α : Type} [LinearOrderedField α]
    (s : Screen α) : Screen α :=
  { s with disks :=
      s.disks.map (stepDisk s.disk_size (s.width : α) (s.height : α)) }

/-- The flattened coordinate buffer built in `Screen::draw` (lib.rs 132-139):
`[x0, y0, x1, y1, ...]` in disk order. -/
def Screen.coordArray {α : Type} (s : Screen α) : List α :=
  s.disks.flatMap fun d => [d.x, d.y]

/-- The WebGL calls issued by `Screen::draw` (lib.rs 124-167), in order. -/
def Screen.draw {α : Type} [LinearOrderedField α] (s : Screen α) :
    List (GLCmd α) :=
  [GLCmd.clearColor 0 0 0 1,
   GLCmd.clear COLOR_BUFFER_BIT,
   GLCmd.bindBuffer ARRAY_BUFFER s.buffer_coords,
   GLCmd.bufferData ARRAY_BUFFER s.coordArray STREAM_DRAW,
   GLCmd.vertexAttribPointer s.attrib_coords 2,
   GLCmd.enableVertexAttribArray s.attrib_coords,
   GLCmd.enableVertexAttribArray s.attrib_color,
   GLCmd.vertexAttrib3f s.attrib_color 1 0 0,
   GLCmd.uniform1f s.uniform_point_size s.disk_size,
   GLCmd.drawArrays POINTS 0 s.disk_num]

/-- `Screen::do_frame` (lib.rs 116-119): run the simulation step, then draw
the updated state.  Returns the new screen state and the GL calls issued. -/
def Screen.do_frame {α : Type} [LinearOrderedField α] (s : Screen α) :
    Screen α × List (GLCmd α) :=
  let s2 := s.on_animation_frame
  (s2, s2.draw)

/-- C2: the per-disk per-frame update first moves by the velocity, then
mirrors independently on each axis exactly as the spec words it, and on the
instance x=10, r=15, width=500, vx=-8 one step yields x=28, vx=+8. -/
theorem stepDisk_spec_and_reflect_instance :
    (∀ (r w h : ℚ) (d : Disk ℚ), stepDiskSpec r w h d = stepDisk r w h d) ∧
    stepDisk (15 : ℚ) 500 500 ⟨10, 250, -8, 0⟩ = ⟨28, 250, 8, 0⟩ :=
  ⟨fun _ _ _ _ => rfl, by norm_num [stepDisk, reflect1]⟩

/-- `init_disks` (lib.rs 48-65): `disk_num` disks, all at the viewport
center, with velocity `1 + 3·random` at angle `π · (0.1 · i · random)`,
where `random` is the value drawn from the RNG at iteration `i`. -/
noncomputable def init_disks (disk_num bound_x bound_y : ℕ)
    (random : ℕ → ℝ) : List (Disk ℝ) :=
  (List.range disk_num).map fun i =>
    ⟨(bound_x : ℝ) / 2, (bound_y : ℝ) / 2,
     (1 + 3 * random i) * Real.cos (Real.pi * (0.1 * (i : ℝ) * random i)),
     (1 + 3 * random i) * Real.sin (Real.pi * (0.1 * (i : ℝ) * random i))⟩

/-- The color array built in `init_gl` (lib.rs 211-214): `disk_num * 3`
independent draws from the RNG. -/
def colorBufferArray {α : Type} (disk_num : ℕ) (randColor : ℕ → α) : List α :=
  (List.range (disk_num * 3)).map randColor

/-- The WebGL calls issued by `init_gl` after program setup (lib.rs
206-230), in order: the two dimension uniforms (note the source passes
`width` to the `u_height` location and `height` to the `u_width` location),
then the color-buffer upload and the `a_color` attribute pointer. -/
def init_gl_cmds {α : Type} [LinearOrderedField α]
    (width height disk_num : ℕ) (randColor : ℕ → α) : List (GLCmd α) :=
  [GLCmd.uniform1f "u_height" (width : α),
   GLCmd.uniform1f "u_width" (height : α),
   GLCmd.bindBuffer ARRAY_BUFFER buffer_color_id,
   GLCmd.bufferData ARRAY_BUFFER (colorBufferArray disk_num randColor) STREAM_DRAW,
   GLCmd.vertexAttribPointer "a_color" 3]

/-- The `Screen` value returned by `init_gl` (lib.rs 232-243). -/
noncomputable def init_gl_screen (width height disk_num : ℕ)
    (disk_size : ℝ) (random : ℕ → ℝ) : Screen ℝ :=
  { uniform_point_size := "u_pointsize"
    buffer_coords := buffer_coords_id
    attrib_coords := "a_coords"
    attrib_color := "a_color"
    width := width
    height := height
    disk_num := disk_num
    disk_size := disk_size
    disks := init_disks disk_num width height random }

/-- The vertex shader's x mapping to normalized device coordinates
(dom_utils.rs line 14). -/
def ndc_x {α : Type} [LinearOrderedField α] (u_width x : α) : α :=
  -1 + 2 * (x / u_width)

/-- The vertex shader's y mapping to normalized device coordinates
(dom_utils.rs line 15). -/
def ndc_y {α : Type} [LinearOrderedField α] (u_height y : α) : α :=
  1 - 2 * (y / u_height)

/-- Recognizer for point draw calls. -/
def isDrawArrays {α : Type} : GLCmd α → Bool
  | .drawArrays _ _ _ => true
  | _ => false

/-- The inductive invariant of the simulation: the disk center lies in the
reflection band on both axes and each velocity component is at most the
width of that band. -/
def DiskInv {α : Type} [LinearOrderedField α] (size width height : α)
    (d : Disk α) : Prop :=
  size ≤ d.x ∧ d.x ≤ width - size ∧ size ≤ d.y ∧ d.y ≤ height - size ∧
  |d.cos| ≤ width - 2 * size ∧ |d.sin| ≤ height - 2 * size

/-- One axis of the reflection update keeps the coordinate inside the band
and preserves the absolute value of the velocity component. -/
theorem reflect1_bounds {α : Type} [LinearOrderedField α]
    {size bound x v : α} (hx1 : size ≤ x) (hx2 : x ≤ bound - size)
    (hv : |v| ≤ bound - 2 * size) :
    size ≤ (reflect1 size bound x v).1 ∧
    (reflect1 size bound x v).1 ≤ bound - size ∧
    |(reflect1 size bound x v).2| = |v| := by
  obtain ⟨hv1, hv2⟩ := abs_le.mp hv
  unfold reflect1
  split_ifs with h1 h2 <;> refine ⟨?_, ?_, ?_⟩ <;> dsimp only <;>
    first
      | linarith
      | simp [abs_abs]

/-- Reflection preserves the absolute value of the velocity component,
unconditionally. -/
theorem reflect1_abs {α : Type} [LinearOrderedField α] (size bound x v : α) :
    |(reflect1 size bound x v).2| = |v| := by
  unfold reflect1
  split_ifs <;> simp [abs_abs]

/-- One simulation step preserves the inductive invariant. -/
theorem stepDisk_inv {α : Type} [LinearOrderedField α]
    {size width height : α} {d : Disk α} (h : DiskInv size width height d) :
    DiskInv size width height (stepDisk size width height d) := by
  obtain ⟨h1, h2, h3, h4, h5, h6⟩ := h
  have hx := reflect1_bounds h1 h2 h5
  have hy := reflect1_bounds h3 h4 h6
  exact ⟨hx.1, hx.2.1, hy.1, hy.2.1,
    by rw [show (stepDisk size width height d).cos =
        (reflect1 size width d.x d.cos).2 from rfl, hx.2.2]; exact h5,
    by rw [show (stepDisk size width height d).sin =
        (reflect1 size height d.y d.sin).2 from rfl, hy.2.2]; exact h6⟩

/-- Any number of simulation steps preserves the inductive invariant. -/
theorem stepDisk_iterate_inv {α : Type} [LinearOrderedField α]
    {size width height : α} {d : Disk α} (n : ℕ)
    (h : DiskInv size width height d) :
    DiskInv size width height ((stepDisk size width height)^[n] d) := by
  induction n with
  | zero => simpa using h
  | succ n ih => rw [Function.iterate_succ_apply']; exact stepDisk_inv ih

/-- `on_animation_frame` iterated `n` times maps every disk through the
`n`-fold per-disk step and leaves every other field unchanged. -/
theorem oaf_iterate {α : Type} [LinearOrderedField α] (s : Screen α) (n : ℕ) :
    Screen.on_animation_frame^[n] s =
      { s with disks := (s.disks.map
          ((stepDisk s.disk_size (s.width : α) (s.height : α))^[n])) } := by
  induction n with
  | zero => simp
  | succ n ih =>
      rw [Function.iterate_succ_apply', ih]
      simp [Screen.on_animation_frame, List.map_map,
        ← Function.iterate_succ_apply']

/-- Iterating the simulation step does not change the number of disks. -/
theorem oaf_iterate_length {α : Type} [LinearOrderedField α]
    (s : Screen α) (n : ℕ) :
    (Screen.on_animation_frame^[n] s).disks.length = s.disks.length := by
  rw [oaf_iterate]; simp

/-- C1: after every simulation step (any number of ticks), every disk center
lies within `[disk_size, width - disk_size] × [disk_size, height - disk_size]`,
provided every disk satisfies the inductive invariant at the start; and the
screens actually built by `init_gl` satisfy that invariant whenever the
radius fits in the viewport with at least the maximal speed 4 to spare. -/
theorem containment_after_any_steps :
    (∀ (α : Type) (_inst : LinearOrderedField α) (s : Screen α) (n : ℕ),
      (∀ d ∈ s.disks, DiskInv s.disk_size (s.width : α) (s.height : α) d) →
      ∀ d ∈ (Screen.on_animation_frame^[n] s).disks,
        s.disk_size ≤ d.x ∧ d.x ≤ (s.width : α) - s.disk_size ∧
        s.disk_size ≤ d.y ∧ d.y ≤ (s.height : α) - s.disk_size) ∧
    (∀ (w h dn : ℕ) (sz : ℝ) (random : ℕ → ℝ),
      (∀ i, 0 ≤ random i) → (∀ i, random i < 1) →
      sz ≤ (w : ℝ) / 2 → (w : ℝ) / 2 ≤ (w : ℝ) - sz →
      sz ≤ (h : ℝ) / 2 → (h : ℝ) / 2 ≤ (h : ℝ) - sz →
      4 ≤ (w : ℝ) - 2 * sz → 4 ≤ (h : ℝ) - 2 * sz →
      ∀ d ∈ (init_gl_screen w h dn sz random).disks,
        DiskInv sz (w : ℝ) (h : ℝ) d) := by
  constructor
  · intro α _inst s n hInv d hd
    rw [oaf_iterate] at hd
    simp only [List.mem_map] at hd
    obtain ⟨d0, hd0, rfl⟩ := hd
    have h := stepDisk_iterate_inv n (hInv d0 hd0)
    exact ⟨h.1, h.2.1, h.2.2.1, h.2.2.2.1⟩
  · intro w h dn sz random hr0 hr1 hw1 hw2 hh1 hh2 hvw hvh d hd
    simp only [init_gl_screen, init_disks, List.mem_map, List.mem_range] at hd
    obtain ⟨i, _, rfl⟩ := hd
    have hv0 : (0 : ℝ) ≤ 1 + 3 * random i := by have := hr0 i; linarith
    have hv4 : 1 + 3 * random i < 4 := by have := hr1 i; linarith
    have hcos : |Real.cos (Real.pi * (0.1 * (i : ℝ) * random i))| ≤ 1 :=
      Real.abs_cos_le_one _
    have hsin : |Real.sin (Real.pi * (0.1 * (i : ℝ) * random i))| ≤ 1 :=
      Real.abs_sin_le_one _
    refine ⟨hw1, hw2, hh1, hh2, ?_, ?_⟩
    · rw [abs_mul, abs_of_nonneg hv0]
      nlinarith
    · rw [abs_mul, abs_of_nonneg hv0]
      nlinarith

/-- A concrete 500×500 screen with one disk, used to evaluate the model. -/
def myScreen : Screen ℚ :=
  { uniform_point_size := "u_pointsize"
    buffer_coords := buffer_coords_id
    attrib_coords := "a_coords"
    attrib_color := "a_color"
    width := 500
    height := 500
    disk_num := 1
    disk_size := 32
    disks := [⟨250, 250, 3, 1⟩] }

/-- Witness for C1: at the concrete screen, after one tick the disk
`(253, 251)` is inside the band. -/
theorem containment_after_any_steps_witness :
    myScreen.disk_size ≤ (⟨253, 251, 3, 1⟩ : Disk ℚ).x ∧
    (⟨253, 251, 3, 1⟩ : Disk ℚ).x ≤ (myScreen.width : ℚ) - myScreen.disk_size ∧
    myScreen.disk_size ≤ (⟨253, 251, 3, 1⟩ : Disk ℚ).y ∧
    (⟨253, 251, 3, 1⟩ : Disk ℚ).y ≤ (myScreen.height : ℚ) - myScreen.disk_size :=
  containment_after_any_steps.1 ℚ inferInstance myScreen 1
    (by
      intro d hd
      simp only [myScreen, List.mem_singleton] at hd
      subst hd
      norm_num [DiskInv, myScreen])
    ⟨253, 251, 3, 1⟩
    (by norm_num [myScreen, Screen.on_animation_frame, stepDisk, reflect1])

/-- Any number of per-disk steps preserves the absolute value of both
velocity components (reflections only flip signs). -/
theorem stepDisk_iterate_abs {α : Type} [LinearOrderedField α]
    (size width height : α) (d : Disk α) (n : ℕ) :
    |((stepDisk size width height)^[n] d).cos| = |d.cos| ∧
    |((stepDisk size width height)^[n] d).sin| = |d.sin| := by
  induction n with
  | zero => simp
  | succ n ih =>
      rw [Function.iterate_succ_apply']
      constructor
      · rw [show (stepDisk size width height ((stepDisk size width height)^[n] d)).cos =
            (reflect1 size width ((stepDisk size width height)^[n] d).x
              ((stepDisk size width height)^[n] d).cos).2 from rfl, reflect1_abs]
        exact ih.1
      · rw [show (stepDisk size width height ((stepDisk size width height)^[n] d)).sin =
            (reflect1 size height ((stepDisk size width height)^[n] d).y
              ((stepDisk size width height)^[n] d).sin).2 from rfl, reflect1_abs]
        exact ih.2

/-- The `i`-th disk after `n` ticks is the `n`-fold step of the `i`-th
initial disk. -/
theorem get_oaf_iterate {α : Type} [LinearOrderedField α] (s : Screen α)
    (n i : ℕ) (h : i < (Screen.on_animation_frame^[n] s).disks.length)
    (h2 : i < s.disks.length) :
    (Screen.on_animation_frame^[n] s).disks.get ⟨i, h⟩ =
      (stepDisk s.disk_size (s.width : α) (s.height : α))^[n]
        (s.disks.get ⟨i, h2⟩) := by
  simp only [List.get_eq_getElem, oaf_iterate, List.getElem_map]

/-- C3: a step that triggers no reflection is pure translation (velocity
unchanged), and across any number of ticks each disk's velocity components
keep their absolute values, hence `vx² + vy²` is exactly preserved. -/
theorem velocity_magnitude_invariant :
    (∀ (α : Type) (_inst : LinearOrderedField α) (size w h : α) (d : Disk α),
      ¬(d.x + d.cos - size < 0) → ¬(d.x + d.cos + size > w) →
      ¬(d.y + d.sin - size < 0) → ¬(d.y + d.sin + size > h) →
      stepDisk size w h d = ⟨d.x + d.cos, d.y + d.sin, d.cos, d.sin⟩) ∧
    (∀ (α : Type) (_inst : LinearOrderedField α) (s : Screen α) (n i : ℕ)
      (hi : i < s.disks.length),
      |((Screen.on_animation_frame^[n] s).disks.get
          ⟨i, by rw [oaf_iterate_length]; exact hi⟩).cos| =
        |(s.disks.get ⟨i, hi⟩).cos| ∧
      |((Screen.on_animation_frame^[n] s).disks.get
          ⟨i, by rw [oaf_iterate_length]; exact hi⟩).sin| =
        |(s.disks.get ⟨i, hi⟩).sin| ∧
      ((Screen.on_animation_frame^[n] s).disks.get
          ⟨i, by rw [oaf_iterate_length]; exact hi⟩).cos ^ 2 +
        ((Screen.on_animation_frame^[n] s).disks.get
          ⟨i, by rw [oaf_iterate_length]; exact hi⟩).sin ^ 2 =
        (s.disks.get ⟨i, hi⟩).cos ^ 2 + (s.disks.get ⟨i, hi⟩).sin ^ 2) := by
  constructor
  · intro α _inst size w h d h1 h2 h3 h4
    simp [stepDisk, reflect1, h1, h2, h3, h4]
  · intro α _inst s n i hi
    rw [get_oaf_iterate s n i _ hi]
    have habs := stepDisk_iterate_abs s.disk_size (s.width : α) (s.height : α)
      (s.disks.get ⟨i, hi⟩) n
    have hsq : ∀ a b : α, |a| = |b| → a ^ 2 = b ^ 2 := fun a b hab => by
      rw [← sq_abs, hab, sq_abs]
    exact ⟨habs.1, habs.2,
      by rw [hsq _ _ habs.1, hsq _ _ habs.2]⟩

/-- Witness for C3: on the concrete screen, after one tick the velocity
components keep their absolute values and the squared speed is unchanged. -/
theorem velocity_magnitude_invariant_witness :
    |((Screen.on_animation_frame^[1] myScreen).disks.get
        ⟨0, by rw [oaf_iterate_length]; norm_num [myScreen]⟩).cos| =
      |(myScreen.disks.get ⟨0, by norm_num [myScreen]⟩).cos| ∧
    |((Screen.on_animation_frame^[1] myScreen).disks.get
        ⟨0, by rw [oaf_iterate_length]; norm_num [myScreen]⟩).sin| =
      |(myScreen.disks.get ⟨0, by norm_num [myScreen]⟩).sin| ∧
    ((Screen.on_animation_frame^[1] myScreen).disks.get
        ⟨0, by rw [oaf_iterate_length]; norm_num [myScreen]⟩).cos ^ 2 +
      ((Screen.on_animation_frame^[1] myScreen).disks.get
        ⟨0, by rw [oaf_iterate_length]; norm_num [myScreen]⟩).sin ^ 2 =
      (myScreen.disks.get ⟨0, by norm_num [myScreen]⟩).cos ^ 2 +
        (myScreen.disks.get ⟨0, by norm_num [myScreen]⟩).sin ^ 2 :=
  velocity_magnitude_invariant.2 ℚ inferInstance myScreen 1 0
    (by norm_num [myScreen])

/-- C4: evaluating the initialization at width=500, height=300, the
`u_width` uniform receives 300 (the configured *height*) and `u_height`
receives 500 (the configured *width*): lib.rs lines 206-207 pass the values
to the swapped uniform locations, so the shader's NDC mapping
`x' = -1 + 2x/u_width` divides by the wrong dimension (for x = 450 the
correct and actual mappings disagree). -/
theorem init_uniforms_swapped :
    (runGL (GLState.initial (α := ℚ))
        (init_gl_cmds 500 300 100 fun _ => 0)).uniforms "u_width" = some 300 ∧
    (runGL (GLState.initial (α := ℚ))
        (init_gl_cmds 500 300 100 fun _ => 0)).uniforms "u_height" = some 500 ∧
    ndc_x ((300 : ℕ) : ℚ) 450 ≠ ndc_x ((500 : ℕ) : ℚ) 450 := by
  refine ⟨?_, ?_, ?_⟩
  · simp [runGL, init_gl_cmds, applyCmd, GLState.initial]
  · simp [runGL, init_gl_cmds, applyCmd, GLState.initial]
  · norm_num [ndc_x]

/-- A single draw leaves the color buffer's contents and the `a_color`
attribute's buffer binding untouched, as long as the screen's coordinate
buffer and coordinate attribute are distinct from the color ones. -/
theorem draw_preserves_color_state {α : Type} [LinearOrderedField α]
    (g : GLState α) (s : Screen α) (hb : s.buffer_coords ≠ buffer_color_id)
    (ha : s.attrib_coords ≠ "a_color") :
    (runGL g s.draw).bufferContents buffer_color_id =
      g.bufferContents buffer_color_id ∧
    (runGL g s.draw).attribBuffer "a_color" = g.attribBuffer "a_color" := by
  have hb2 : buffer_color_id ≠ s.buffer_coords := Ne.symm hb
  have ha2 : "a_color" ≠ s.attrib_coords := Ne.symm ha
  constructor <;> simp [runGL, Screen.draw, applyCmd, hb2, ha2]

/-- Any sequence of draws leaves the color buffer's contents and the
`a_color` attribute binding untouched. -/
theorem frames_preserve_color_state {α : Type} [LinearOrderedField α]
    (frames : List (Screen α)) (g : GLState α)
    (hf : ∀ s ∈ frames, s.buffer_coords ≠ buffer_color_id ∧
      s.attrib_coords ≠ "a_color") :
    ((frames.map Screen.draw).foldl runGL g).bufferContents buffer_color_id =
      g.bufferContents buffer_color_id ∧
    ((frames.map Screen.draw).foldl runGL g).attribBuffer "a_color" =
      g.attribBuffer "a_color" := by
  induction frames generalizing g with
  | nil => exact ⟨rfl, rfl⟩
  | cons s t ih =>
      have hs := hf s (List.mem_cons_self s t)
      have ht : ∀ s2 ∈ t, s2.buffer_coords ≠ buffer_color_id ∧
          s2.attrib_coords ≠ "a_color" :=
        fun s2 hs2 => hf s2 (List.mem_cons_of_mem _ hs2)
      have h1 := draw_preserves_color_state g s hs.1 hs.2
      have h2 := ih (runGL g s.draw) ht
      simp only [List.map_cons, List.foldl_cons]
      exact ⟨h2.1.trans h1.1, h2.2.trans h1.2⟩

/-- C5 (amended): the color data is `disk_num * 3` values in `[0,1)`,
uploaded to the color buffer once during initialization; subsequent frames
never mutate it, and the `a_color` attribute's binding to that buffer,
captured at initialization, persists across every frame (the per-frame draw
only re-enables the attribute array; it does not rebind the buffer). -/
theorem color_buffer_static :
    ∀ (α : Type) (_inst : LinearOrderedField α) (disk_num w h : ℕ)
      (randColor : ℕ → α),
      (∀ i, 0 ≤ randColor i ∧ randColor i < 1) →
      ∀ (g0 : GLState α) (frames : List (Screen α)),
        (∀ s ∈ frames, s.buffer_coords ≠ buffer_color_id ∧
          s.attrib_coords ≠ "a_color") →
        (colorBufferArray disk_num randColor).length = disk_num * 3 ∧
        (∀ c ∈ colorBufferArray disk_num randColor, 0 ≤ c ∧ c < 1) ∧
        GLCmd.bufferData ARRAY_BUFFER (colorBufferArray disk_num randColor)
          STREAM_DRAW ∈ init_gl_cmds w h disk_num randColor ∧
        ((frames.map Screen.draw).foldl runGL
            (runGL g0 (init_gl_cmds w h disk_num randColor))).bufferContents
          buffer_color_id = colorBufferArray disk_num randColor ∧
        ((frames.map Screen.draw).foldl runGL
            (runGL g0 (init_gl_cmds w h disk_num randColor))).attribBuffer
          "a_color" = some buffer_color_id ∧
        (∀ s : Screen α,
          GLCmd.enableVertexAttribArray s.attrib_color ∈ s.draw) := by
  intro α _inst disk_num w h randColor hr g0 frames hf
  have hinit1 : (runGL g0 (init_gl_cmds w h disk_num randColor)).bufferContents
      buffer_color_id = colorBufferArray disk_num randColor := by
    simp [runGL, init_gl_cmds, applyCmd]
  have hinit2 : (runGL g0 (init_gl_cmds w h disk_num randColor)).attribBuffer
      "a_color" = some buffer_color_id := by
    simp [runGL, init_gl_cmds, applyCmd]
  have hframes := frames_preserve_color_state frames
    (runGL g0 (init_gl_cmds w h disk_num randColor)) hf
  refine ⟨by simp [colorBufferArray], ?_, by simp [init_gl_cmds], ?_, ?_, ?_⟩
  · intro c hc
    simp only [colorBufferArray, List.mem_map, List.mem_range] at hc
    obtain ⟨i, _, rfl⟩ := hc
    exact hr i
  · rw [hframes.1, hinit1]
  · rw [hframes.2, hinit2]
  · intro s
    simp [Screen.draw]

/-- C5 counterexample: the per-frame draw issues no bind of the color
buffer — on the concrete screen, `bindBuffer` of the color buffer is not
among the draw's GL calls (the only buffer bound is the coordinate
buffer), refuting "each per-frame draw rebinds that static color buffer". -/
theorem draw_never_rebinds_color_buffer :
    GLCmd.bindBuffer ARRAY_BUFFER buffer_color_id ∉ myScreen.draw := by
  simp [Screen.draw, myScreen, buffer_color_id, buffer_coords_id]

/-- Witness for C5: concrete initialization with one disk and random 1/2,
followed by one frame on the concrete screen: the color buffer holds the
three initial values, each in `[0,1)`, and `a_color` still sources it. -/
theorem color_buffer_static_witness :
    (colorBufferArray 1 (fun _ => (1 : ℚ)/2)).length = 1 * 3 ∧
    (([myScreen].map Screen.draw).foldl runGL
        (runGL GLState.initial
          (init_gl_cmds 500 500 1 fun _ => (1 : ℚ)/2))).bufferContents
      buffer_color_id = colorBufferArray 1 (fun _ => (1 : ℚ)/2) ∧
    (([myScreen].map Screen.draw).foldl runGL
        (runGL GLState.initial
          (init_gl_cmds 500 500 1 fun _ => (1 : ℚ)/2))).attribBuffer
      "a_color" = some buffer_color_id := by
  have t := color_buffer_static ℚ inferInstance 1 500 500 (fun _ => (1 : ℚ)/2)
    (fun i => by norm_num) GLState.initial [myScreen]
    (by
      intro s hs
      simp only [List.mem_singleton] at hs
      subst hs
      refine ⟨?_, ?_⟩ <;> simp [myScreen, buffer_coords_id, buffer_color_id])
  exact ⟨t.1, t.2.2.2.1, t.2.2.2.2.1⟩

/-- The flattened coordinate list has two entries per disk. -/
theorem flat_coords_length {α : Type} (l : List (Disk α)) :
    (l.flatMap fun d => [d.x, d.y]).length = 2 * l.length := by
  induction l with
  | nil => simp
  | cons d t ih => simp [List.flatMap_cons, ih]; ring

/-- The flattened coordinate list is `[x0, y0, x1, y1, ...]`: entry `2i` is
the `i`-th x and entry `2i+1` the `i`-th y. -/
theorem flat_coords_get {α : Type} (l : List (Disk α)) (i : ℕ) :
    (l.flatMap fun d => [d.x, d.y])[2*i]? = (l[i]?).map Disk.x ∧
    (l.flatMap fun d => [d.x, d.y])[2*i+1]? = (l[i]?).map Disk.y := by
  induction l generalizing i with
  | nil => simp
  | cons d t ih =>
      cases i with
      | zero => simp [List.flatMap_cons]
      | succ i =>
          have e1 : 2*(i+1) = (2*i+1)+1 := by ring
          rw [e1]
          simp only [List.flatMap_cons, List.cons_append, List.nil_append,
            List.getElem?_cons_succ]
          exact ih i

/-- C6: every `draw` flattens the current positions into a tightly packed
list of `2 * disk_num` entries ordered `[x0, y0, x1, y1, ...]` in disk
order, uploads it to the coordinate buffer, and issues exactly one
point-primitive draw call of `disk_num` vertices. -/
theorem draw_uploads_flat_coords :
    ∀ (α : Type) (_inst : LinearOrderedField α) (s : Screen α),
      s.disks.length = s.disk_num →
      s.coordArray.length = 2 * s.disk_num ∧
      (∀ i, s.coordArray[2*i]? = (s.disks[i]?).map Disk.x ∧
            s.coordArray[2*i+1]? = (s.disks[i]?).map Disk.y) ∧
      GLCmd.bufferData ARRAY_BUFFER s.coordArray STREAM_DRAW ∈ s.draw ∧
      (∀ g : GLState α,
        (runGL g s.draw).bufferContents s.buffer_coords = s.coordArray) ∧
      s.draw.countP isDrawArrays = 1 ∧
      GLCmd.drawArrays POINTS 0 s.disk_num ∈ s.draw := by
  intro α _inst s hnum
  refine ⟨?_, ?_, ?_, ?_, ?_, ?_⟩
  · rw [Screen.coordArray, flat_coords_length, hnum]
  · exact fun i => flat_coords_get s.disks i
  · simp [Screen.draw]
  · intro g
    simp [runGL, Screen.draw, applyCmd]
  · rfl
  · simp [Screen.draw]

/-- Witness for C6: on the concrete screen the coordinate list has length
2·disk_num, its first pair is the first disk's position, and exactly one
draw call is issued. -/
theorem draw_uploads_flat_coords_witness :
    myScreen.coordArray.length = 2 * myScreen.disk_num ∧
    myScreen.coordArray[2*0]? = (myScreen.disks[0]?).map Disk.x ∧
    myScreen.coordArray[2*0+1]? = (myScreen.disks[0]?).map Disk.y ∧
    myScreen.draw.countP isDrawArrays = 1 := by
  have t := draw_uploads_flat_coords ℚ inferInstance myScreen rfl
  exact ⟨t.1, (t.2.1 0).1, (t.2.1 0).2, t.2.2.2.2.1⟩

/-- C7: `init_disks` produces `disk_num` disks, all at the viewport center,
the `i`-th with velocity components `(1+3r)·cos(π·(0.1·i·r))` and
`(1+3r)·sin(π·(0.1·i·r))` for its random draw `r`; for `r ∈ [0,1)` the
speed `sqrt(vx²+vy²) = 1+3r` lies in `[1,4)`. -/
theorem init_disks_spec :
    ∀ (dn bx bY : ℕ) (random : ℕ → ℝ),
      (init_disks dn bx bY random).length = dn ∧
      ∀ i (h : i < (init_disks dn bx bY random).length),
        ((init_disks dn bx bY random).get ⟨i, h⟩).x = (bx : ℝ) / 2 ∧
        ((init_disks dn bx bY random).get ⟨i, h⟩).y = (bY : ℝ) / 2 ∧
        ((init_disks dn bx bY random).get ⟨i, h⟩).cos =
          (1 + 3 * random i) * Real.cos (Real.pi * (0.1 * (i : ℝ) * random i)) ∧
        ((init_disks dn bx bY random).get ⟨i, h⟩).sin =
          (1 + 3 * random i) * Real.sin (Real.pi * (0.1 * (i : ℝ) * random i)) ∧
        (0 ≤ random i → random i < 1 →
          1 ≤ Real.sqrt (((init_disks dn bx bY random).get ⟨i, h⟩).cos ^ 2 +
                ((init_disks dn bx bY random).get ⟨i, h⟩).sin ^ 2) ∧
          Real.sqrt (((init_disks dn bx bY random).get ⟨i, h⟩).cos ^ 2 +
                ((init_disks dn bx bY random).get ⟨i, h⟩).sin ^ 2) < 4) := by
  intro dn bx bY random
  refine ⟨by simp [init_disks], ?_⟩
  intro i h
  have hget : (init_disks dn bx bY random).get ⟨i, h⟩ =
      ⟨(bx : ℝ) / 2, (bY : ℝ) / 2,
       (1 + 3 * random i) * Real.cos (Real.pi * (0.1 * (i : ℝ) * random i)),
       (1 + 3 * random i) * Real.sin (Real.pi * (0.1 * (i : ℝ) * random i))⟩ := by
    simp [init_disks, List.get_eq_getElem]
  rw [hget]
  refine ⟨rfl, rfl, rfl, rfl, ?_⟩
  intro hr0 hr1
  have hv0 : (0 : ℝ) ≤ 1 + 3 * random i := by linarith
  have hsum : ((1 + 3 * random i) * Real.cos (Real.pi * (0.1 * (i : ℝ) * random i))) ^ 2 +
      ((1 + 3 * random i) * Real.sin (Real.pi * (0.1 * (i : ℝ) * random i))) ^ 2 =
      (1 + 3 * random i) ^ 2 := by
    have hcs := Real.sin_sq_add_cos_sq (Real.pi * (0.1 * (i : ℝ) * random i))
    nlinarith [hcs]
  dsimp only
  rw [hsum, Real.sqrt_sq hv0]
  constructor <;> linarith

/-- Witness for C7: one disk at center of a 500×500 viewport with random
1/2 has speed 5/2 ∈ [1,4). -/
theorem init_disks_spec_witness :
    ((init_disks 1 500 500 fun _ => (1 : ℝ)/2).get
        ⟨0, by simp [init_disks]⟩).x = ((500 : ℕ) : ℝ) / 2 ∧
    (1 ≤ Real.sqrt (((init_disks 1 500 500 fun _ => (1 : ℝ)/2).get
          ⟨0, by simp [init_disks]⟩).cos ^ 2 +
        ((init_disks 1 500 500 fun _ => (1 : ℝ)/2).get
          ⟨0, by simp [init_disks]⟩).sin ^ 2) ∧
      Real.sqrt (((init_disks 1 500 500 fun _ => (1 : ℝ)/2).get
          ⟨0, by simp [init_disks]⟩).cos ^ 2 +
        ((init_disks 1 500 500 fun _ => (1 : ℝ)/2).get
          ⟨0, by simp [init_disks]⟩).sin ^ 2) < 4) := by
  have t := (init_disks_spec 1 500 500 fun _ => (1 : ℝ)/2).2 0
    (by simp [init_disks])
  exact ⟨t.1, t.2.2.2.2 (by norm_num) (by norm_num)⟩

/-- C8: with `disk_num = 0` initialization yields the empty disk list, the
simulation step of `do_frame` is a no-op on it, and the draw issues exactly
one draw call, of zero vertices. -/
theorem zero_disks_frame :
    ∀ (w h : ℕ) (sz : ℝ) (random : ℕ → ℝ),
      init_disks 0 w h random = [] ∧
      ((init_gl_screen w h 0 sz random).do_frame).1.disks = [] ∧
      ((init_gl_screen w h 0 sz random).do_frame).2.countP isDrawArrays = 1 ∧
      GLCmd.drawArrays POINTS 0 0 ∈ ((init_gl_screen w h 0 sz random).do_frame).2 := by
  intro w h sz random
  refine ⟨by simp [init_disks], ?_, rfl, ?_⟩
  · simp [Screen.do_frame, Screen.on_animation_frame, init_gl_screen, init_disks]
  · simp [Screen.do_frame, Screen.draw, init_gl_screen, Screen.on_animation_frame]

/-- C9: `do_frame` only moves disks: the viewport dimensions, `disk_num`,
`disk_size` and the number of disks are all unchanged by every call. -/
theorem do_frame_preserves_config :
    ∀ (α : Type) (_inst : LinearOrderedField α) (s : Screen α),
      (s.do_frame).1.width = s.width ∧
      (s.do_frame).1.height = s.height ∧
      (s.do_frame).1.disk_num = s.disk_num ∧
      (s.do_frame).1.disk_size = s.disk_size ∧
      (s.do_frame).1.disks.length = s.disks.length := by
  intro α _inst s
  refine ⟨rfl, rfl, rfl, rfl, ?_⟩
  simp [Screen.do_frame, Screen.on_animation_frame]

/-- C10: the disk at index 0 always has angle `π·(0.1·0·r) = 0`, so its
initial velocity is horizontal: `vx = 1 + 3r` and `vy = 0`; for `r ∈ [0,1)`,
`vx ∈ [1,4)`. -/
theorem first_disk_moves_horizontally :
    ∀ (dn bx bY : ℕ) (random : ℕ → ℝ)
      (h : 0 < (init_disks dn bx bY random).length),
      ((init_disks dn bx bY random).get ⟨0, h⟩).cos = 1 + 3 * random 0 ∧
      ((init_disks dn bx bY random).get ⟨0, h⟩).sin = 0 ∧
      (0 ≤ random 0 → random 0 < 1 →
        1 ≤ ((init_disks dn bx bY random).get ⟨0, h⟩).cos ∧
        ((init_disks dn bx bY random).get ⟨0, h⟩).cos < 4) := by
  intro dn bx bY random h
  have hget : (init_disks dn bx bY random).get ⟨0, h⟩ =
      ⟨(bx : ℝ) / 2, (bY : ℝ) / 2, 1 + 3 * random 0, 0⟩ := by
    simp [init_disks, List.get_eq_getElem]
  rw [hget]
  refine ⟨rfl, rfl, fun h0 h1 => ⟨?_, ?_⟩⟩ <;> dsimp only <;> linarith

/-- Witness for C10: two disks with random 1/3: the first disk's velocity
is `(2, 0)`, horizontal with speed in [1,4). -/
theorem first_disk_moves_horizontally_witness :
    ((init_disks 2 500 500 fun _ => (1 : ℝ)/3).get
        ⟨0, by simp [init_disks]⟩).cos = 1 + 3 * ((1 : ℝ)/3) ∧
    ((init_disks 2 500 500 fun _ => (1 : ℝ)/3).get
        ⟨0, by simp [init_disks]⟩).sin = 0 ∧
    (1 ≤ ((init_disks 2 500 500 fun _ => (1 : ℝ)/3).get
        ⟨0, by simp [init_disks]⟩).cos ∧
      ((init_disks 2 500 500 fun _ => (1 : ℝ)/3).get
        ⟨0, by simp [init_disks]⟩).cos < 4) := by
  have t := first_disk_moves_horizontally 2 500 500 (fun _ => (1 : ℝ)/3)
    (by simp [init_disks])
  exact ⟨t.1, t.2.1, t.2.2 (by norm_num) (by norm_num)⟩
